import Mathlib

/-!
Verification of the scrumAI subprocess RPC layer.

A shallow embedding of the two Node.js service classes of the repository,
`src/services/chatbotService.js` (`ChatbotService`) and
`src/services/whisperService.js` (`WhisperService`), together with proofs
about the behaviour claimed by the specification.

The chatbot service exchanges newline-delimited JSON with a Python worker
over stdin/stdout.  Each `sendMessage` call enqueues a request; the queue
processor writes at most one request at a time to the worker and attaches a
one-shot (`once`) stdout listener whose closure resolves or rejects that
request's promise.  The embedding models this event-driven machinery as a
state machine (`SvcState`) driven by an explicit event trace (`Evt`):
sends, stdout `data` events, request-timeout firings and the process
`close` event.  The Node.js `once`-listener semantics is modelled exactly:
the snapshot of listeners registered at emit time all fire (in registration
order) on the same chunk and are removed; listeners registered during the
emit only see later events.  JS promise semantics is modelled by
`settle`: resolving or rejecting an already-settled promise is a no-op.
-/

/-- A decoded line of the chatbot worker's stdout, as classified by the
`handleResponse` closure in `processMessageQueue`
(`chatbotService.js:254-296`): the `type` field is `response`,
`stream_chunk`, `stream_end` or `error`; `otherJson` is a JSON line with
any other `type` (all `if`s fall through); `malformed` is a line on which
`JSON.parse` throws. -/
inductive Line where
  | response (d : String)
  | streamChunk (d : String)
  | streamEnd
  | error (d : String)
  | otherJson
  | malformed (raw : String)
deriving DecidableEq

/-- The state of one caller's promise created by `sendMessage`
(`chatbotService.js:197-200`). -/
inductive PromiseState where
  | pending
  | resolved (v : String)
  | rejected (e : String)
deriving DecidableEq

/-- Whether a promise is still unsettled. -/
def PromiseState.isPending : PromiseState → Bool
  | .pending => true
  | _ => false

/-- One entry of `this.messageQueue` (`chatbotService.js:198`):
`{ data, resolve, reject, stream }`.  The promise is identified by the
request's submission sequence number `id`; the serialized payload is
irrelevant to the control flow and omitted. -/
structure Req where
  id : Nat
  stream : Bool
deriving DecidableEq

/-- A one-shot stdout listener registered by
`this.chatbotProcess.stdout.once('data', handleResponse)`
(`chatbotService.js:298`).  The closure captures the request's
`resolve`/`reject` (identified by `reqId`), its `stream` flag and its
(initially empty) `streamBuffer`. -/
structure Listener where
  reqId : Nat
  stream : Bool
  buf : List String
deriving DecidableEq

/-- The mutable state of a `ChatbotService` instance
(`chatbotService.js:14-22`) together with the promises it has created, the
set of live stdout listeners and the set of armed request timeouts.
`written` records, in order, the ids of requests whose payload has been
written to the worker's stdin.  `callbackLog` records the arguments of
`onResponseCallback` invocations; `statusLog` those of
`onStatusCallback`. -/
structure SvcState where
  nextId : Nat
  messageQueue : List Req
  isProcessingMessage : Bool
  listeners : List Listener
  promises : List PromiseState
  timeouts : List Nat
  written : List Nat
  callbackLog : List String
  statusLog : List String
  isRunning : Bool
  hasProcess : Bool
deriving DecidableEq

/-- JS promise `resolve`/`reject`: settling promise `i` with outcome `out`
takes effect only if the promise is still pending. -/
def settle (ps : List PromiseState) (i : Nat) (out : PromiseState) :
    List PromiseState :=
  if (ps.getD i (.resolved "")).isPending then ps.set i out else ps

/-- `ChatbotService.processMessageQueue` (`chatbotService.js:238-300`),
up to (and including) the write of the dequeued request: if a message is
already being processed or the queue is empty, return; otherwise dequeue
the oldest request, arm its 30s timeout, register its one-shot
`handleResponse` stdout listener, and write its payload to stdin.  The
asynchronous continuations (the listener body and the timeout callback)
are modelled by `handleResponse` and `fireTimeout` below. -/
def processMessageQueue (s : SvcState) : SvcState :=
  if s.isProcessingMessage then s
  else
    match s.messageQueue with
    | [] => s
    | r :: rest =>
      { s with
        isProcessingMessage := true
        messageQueue := rest
        timeouts := s.timeouts ++ [r.id]
        listeners := s.listeners ++ [⟨r.id, r.stream, []⟩]
        written := s.written ++ [r.id] }

/-- `ChatbotService.sendMessage` (`chatbotService.js:176-201`): if the
process handle is gone or the service is not running, the method throws
before creating a promise (no state change); otherwise it pushes a new
queue entry with a fresh pending promise and calls
`processMessageQueue`. -/
def sendMessage (s : SvcState) (stream : Bool) : SvcState :=
  if s.hasProcess && s.isRunning then
    processMessageQueue
      { s with
        nextId := s.nextId + 1
        messageQueue := s.messageQueue ++ [⟨s.nextId, stream⟩]
        promises := s.promises ++ [.pending] }
  else s

/-- The body of the `handleResponse` closure (`chatbotService.js:254-296`)
for listener `L`, processing the (trimmed, non-empty) lines of one stdout
chunk.  A `response` line resolves `L`'s promise, clears `L`'s timeout,
unsets the processing flag and re-runs the queue — dropping any remaining
lines of the chunk (`return`).  A `stream_chunk` line is appended to the
closure's `streamBuffer` and forwarded to `onResponseCallback`.
`stream_end` resolves with the concatenated buffer; `error` rejects.  A
line on which `JSON.parse` throws aborts the whole loop via the `catch`
block, keeping the effects of the lines already processed but performing
nothing else. -/
def handleResponse (L : Listener) : List String → SvcState → List Line → SvcState
  | _, s, [] => s
  | _, s, .response d :: _ =>
    processMessageQueue
      { s with
        timeouts := s.timeouts.filter (fun j => j != L.reqId)
        isProcessingMessage := false
        promises := settle s.promises L.reqId (.resolved d) }
  | buf, s, .streamChunk d :: rest =>
    handleResponse L (buf ++ [d])
      { s with callbackLog := s.callbackLog ++ [d] } rest
  | buf, s, .streamEnd :: _ =>
    processMessageQueue
      { s with
        timeouts := s.timeouts.filter (fun j => j != L.reqId)
        isProcessingMessage := false
        promises := settle s.promises L.reqId (.resolved (String.join buf)) }
  | _, s, .error d :: _ =>
    processMessageQueue
      { s with
        timeouts := s.timeouts.filter (fun j => j != L.reqId)
        isProcessingMessage := false
        promises := settle s.promises L.reqId (.rejected d) }
  | buf, s, .otherJson :: rest => handleResponse L buf s rest
  | _, s, .malformed _ :: _ => s

/-- A `data` event on the worker's stdout delivering one chunk.  Node.js
`emit` semantics for `once` listeners: the listeners registered at emit
time are removed and then invoked in registration order on the same chunk;
listeners added during the emit (by `processMessageQueue` inside
`handleResponse`) only receive later events. -/
def fireData (s : SvcState) (chunk : List Line) : SvcState :=
  (s.listeners).foldl (fun st L => handleResponse L [] st chunk)
    { s with listeners := [] }

/-- The 30-second request timeout callback (`chatbotService.js:248-252`):
reject the request's promise with `Message timeout`, unset the processing
flag and re-run the queue.  The one-shot stdout listener of the timed-out
request is NOT removed.  Fires only if the timeout is still armed. -/
def fireTimeout (s : SvcState) (i : Nat) : SvcState :=
  if s.timeouts.contains i then
    processMessageQueue
      { s with
        promises := settle s.promises i (.rejected "Message timeout")
        timeouts := s.timeouts.filter (fun j => j != i)
        isProcessingMessage := false }
  else s

/-- The `close` handler installed by `setupProcessHandlers`
(`chatbotService.js:317-325`): clear the running flag, drop the process
handle and fire the status callback with `closed`.  Nothing else: the
message queue, the armed timeouts, the listeners and all promises are left
untouched. -/
def fireClose (s : SvcState) : SvcState :=
  { s with
    isRunning := false
    hasProcess := false
    statusLog := s.statusLog ++ ["closed"] }

/-- `ChatbotService.stop` (`chatbotService.js:120-163`): early-return if
not running or no process; otherwise (after the graceful-shutdown I/O,
whose errors are caught) the `finally` block clears the running flag, the
process handle, the message queue and the processing flag, and fires the
status callback.  Exceptions are swallowed by `try`/`catch`/`finally`, so
the operation is total. -/
def stopChatbot (s : SvcState) : SvcState :=
  if !s.isRunning || !s.hasProcess then s
  else
    { s with
      isRunning := false
      hasProcess := false
      messageQueue := []
      isProcessingMessage := false
      statusLog := s.statusLog ++ ["stopped"] }

/-- An external event driving the chatbot service state machine. -/
inductive Evt where
  | send (stream : Bool)
  | data (chunk : List Line)
  | timeout (id : Nat)
  | procClose
deriving DecidableEq

/-- One step of the chatbot service event machine. -/
def step (s : SvcState) : Evt → SvcState
  | .send st => sendMessage s st
  | .data c => fireData s c
  | .timeout i => fireTimeout s i
  | .procClose => fireClose s

/-- Run a trace of events. -/
def run (s : SvcState) (tr : List Evt) : SvcState := tr.foldl step s

/-- The state of a freshly started, idle chatbot service: running, with a
live process, empty queue, no promises. -/
def runningInit : SvcState :=
  ⟨0, [], false, [], [], [], [], [], [], true, true⟩

/-- A JSON object parsed from the whisper worker's stdout, discriminated
by its `type` field as in `WhisperService.handleTranscriptionData`
(`whisperService.js:303-332`). -/
inductive WData where
  | transcript (text : String)
  | status (msg : String)
  | error (msg : String)
  | unknown
deriving DecidableEq

/-- A line of the whisper worker's stdout: either valid JSON or plain
text on which `JSON.parse` throws (`whisperService.js:254-261`). -/
inductive WLine where
  | json (d : WData)
  | plain (raw : String)
deriving DecidableEq

/-- The mutable state of a `WhisperService` instance
(`whisperService.js:13-20`).  `plainLog` records the non-JSON lines
logged by the stdout handler; the `Cb` fields record the arguments of the
three callbacks. -/
structure WState where
  isRunning : Bool
  hasProcess : Bool
  transcriptBuffer : List WData
  plainLog : List String
  transcriptCb : List WData
  statusCb : List WData
  errorCb : List String
deriving DecidableEq

/-- `WhisperService.handleTranscriptionData` (`whisperService.js:293-333`):
push the parsed object onto `transcriptBuffer`; if the buffer now exceeds
1000 entries, keep only its last 800 (`slice(-800)`, modelled by `drop`,
which like `slice` keeps relative order and is the whole list when it is
shorter than 800); then dispatch to the callback matching `data.type`. -/
def handleTranscriptionData (w : WState) (d : WData) : WState :=
  let b0 := w.transcriptBuffer ++ [d]
  let b := if b0.length > 1000 then b0.drop (b0.length - 800) else b0
  let w1 := { w with transcriptBuffer := b }
  match d with
  | .transcript _ => { w1 with transcriptCb := w1.transcriptCb ++ [d] }
  | .status _ => { w1 with statusCb := w1.statusCb ++ [d] }
  | .error m => { w1 with errorCb := w1.errorCb ++ [m] }
  | .unknown => w1

/-- The whisper stdout `data` handler (`whisperService.js:251-263`): split
the chunk into trimmed non-empty lines and, per line, either parse and
dispatch via `handleTranscriptionData`, or — when `JSON.parse` throws —
log the raw line and continue with the next line. -/
def whisperData (w : WState) (lines : List WLine) : WState :=
  lines.foldl
    (fun st l =>
      match l with
      | .json d => handleTranscriptionData st d
      | .plain raw => { st with plainLog := st.plainLog ++ [raw] })
    w

/-- `WhisperService.stop` (`whisperService.js:72-106`): early-return if
not running or no process; otherwise signal the process, wait (errors
caught), then drop the handle and clear the running flag.  Total: all
exceptions are caught. -/
def whisperStop (w : WState) : WState :=
  if !w.isRunning || !w.hasProcess then w
  else { w with isRunning := false, hasProcess := false }

/-- The environment facts `ChatbotService.start` consults before
spawning: whether `findPython` succeeds and which required files exist
(`chatbotService.js:32-54`, `340-351`). -/
structure StartEnv where
  pythonFound : Bool
  scriptExists : Bool
  configExists : Bool
deriving DecidableEq

/-- `ChatbotService.checkRequiredFiles` (`chatbotService.js:340-351`):
throw if the worker script or its config file is absent. -/
def checkRequiredFiles (env : StartEnv) : Except String Unit :=
  if !env.scriptExists then .error "Chatbot script not found"
  else if !env.configExists then .error "Chatbot config not found"
  else .ok ()

/-- Outcome of a `start()` call: the thrown error (if any), whether
`spawn` was reached, and the `isRunning` flag afterwards. -/
structure StartOutcome where
  result : Except String Unit
  spawned : Bool
  running : Bool

/-- `ChatbotService.start` (`chatbotService.js:27-115`) up to the spawn:
throw `already running` if running; throw if `findPython` fails; run
`checkRequiredFiles`; only then spawn.  On any throw the `catch` block
clears `isRunning` and rethrows (the already-running throw happens before
the `try`, leaving the flag untouched).  The post-spawn liveness wait is
abstracted as success. -/
def chatbotStart (running : Bool) (env : StartEnv) : StartOutcome :=
  if running then
    ⟨.error "Chatbot service is already running", false, true⟩
  else if !env.pythonFound then
    ⟨.error "Python not found. Please ensure Python is installed and in PATH",
      false, false⟩
  else
    match checkRequiredFiles env with
    | .error e => ⟨.error e, false, false⟩
    | .ok _ => ⟨.ok (), true, true⟩

/-- Leading-run test on character lists: `listLead n h` is true iff the
whole of `n` occurs at the start of `h`. -/
def listLead : List Char → List Char → Bool
  | [], _ => true
  | _ :: _, [] => false
  | a :: as, b :: bs => a == b && listLead as bs

/-- Substring occurrence on character lists, the semantics of JavaScript
`String.prototype.includes`. -/
def listHas (needle : List Char) : List Char → Bool
  | [] => needle.isEmpty
  | b :: bs => listLead needle (b :: bs) || listHas needle bs

/-- JavaScript `toLowerCase()` restricted to its ASCII behaviour, as used
on the message in `_isComplexQuery` (`chatbotService.js:231`). -/
def jsToLower (s : String) : String := String.mk (s.data.map Char.toLower)

/-- JavaScript `hay.includes(needle)`. -/
def jsIncludes (hay needle : String) : Bool := listHas needle.data hay.data

/-- The fixed keyword list of `ChatbotService._isComplexQuery`
(`chatbotService.js:224-229`). -/
def complexKeywords : List String :=
  ["summarize", "summary", "overview", "analyze", "analysis",
   "compare", "contrast", "trend", "pattern", "insight",
   "decision", "conclusion", "recommendation", "action item",
   "meeting notes", "key points", "takeaway"]

/-- `ChatbotService._isComplexQuery` (`chatbotService.js:223-233`). -/
def isComplexQuery (message : String) : Bool :=
  complexKeywords.any (fun k => jsIncludes (jsToLower message) k)

/-- `ChatbotService._determineCommand` (`chatbotService.js:206-218`). -/
def determineCommand (message : String) (stream useRAG : Bool) : String :=
  if stream then "stream"
  else if useRAG || isComplexQuery message then "chat_rag"
  else "chat"

/-- The specification's wording of a complex query: the lower-cased
message contains one of the fixed keyword substrings. -/
def SpecComplexQuery (message : String) : Prop :=
  ∃ k, k ∈ complexKeywords ∧ k.data <:+: (jsToLower message).data

/-- The number of requests that are in flight in the sense of the
specification: written to the worker's stdin and not yet settled. -/
def inFlightCount (s : SvcState) : Nat :=
  (s.written.filter (fun i => (s.promises.getD i (.resolved "")).isPending)).length

/-- The expected promise list after `m` submissions of which the first
`k` have been answered with the response lines `rs`. -/
def expProm (rs : List String) (m k : Nat) : List PromiseState :=
  (List.range m).map (fun i => if i < k then .resolved (rs.getD i "") else .pending)

/-- The queue of non-streaming requests with ids `a, a+1, …, b-1`. -/
def idRange (a b : Nat) : List Req :=
  (List.range' a (b - a)).map (fun i => ⟨i, false⟩)

/-- The reachable-state invariant of the chatbot service under sends and
per-line response deliveries: after `m` submissions of which `k` have
been answered (with the response lines `rs`), the first `k` promises are
resolved in order and the rest pending; if a request is unanswered, the
oldest unanswered one (`k`) is in flight — written, with the single live
listener and the single armed timeout — and the younger ones wait in the
queue in FIFO order; otherwise the service is idle. -/
structure SvcInv (rs : List String) (m k : Nat) (s : SvcState) : Prop where
  hkm : k ≤ m
  hnext : s.nextId = m
  hprom : s.promises = expProm rs m k
  hrun : s.isRunning = true
  hproc : s.hasProcess = true
  hflight :
    if k < m then
      s.listeners = [⟨k, false, []⟩] ∧ s.isProcessingMessage = true ∧
        s.messageQueue = idRange (k + 1) m ∧ s.timeouts = [k] ∧
        s.written = List.range (k + 1)
    else
      s.listeners = [] ∧ s.isProcessingMessage = false ∧
        s.messageQueue = [] ∧ s.timeouts = [] ∧ s.written = List.range m

/-- Traces made of `send` events and `data` events that each deliver
exactly one response line, drawn in order from `rs`: `SDTrace rs m k tr`
means `tr` is such a trace continuing a history of `m` sends and `k`
answered responses, where a response may only arrive while some request
is in flight (`k < m`) — the worker answers only what it was asked.
These are exactly the executions quantified over by the FIFO-correlation
property: arbitrary call timing, no timeouts firing, no worker exit. -/
inductive SDTrace (rs : List String) : Nat → Nat → List Evt → Prop where
  | nil {m k : Nat} : SDTrace rs m k []
  | send {m k : Nat} {tr : List Evt} (h : SDTrace rs (m + 1) k tr) :
      SDTrace rs m k (Evt.send false :: tr)
  | data {m k : Nat} {tr : List Evt} (hk : k < m)
      (h : SDTrace rs m (k + 1) tr) :
      SDTrace rs m k (Evt.data [Line.response (rs.getD k "")] :: tr)

/-- Number of `send` events in a trace. -/
def countSends : List Evt → Nat
  | [] => 0
  | .send _ :: t => countSends t + 1
  | _ :: t => countSends t

/-- Number of `data` events in a trace. -/
def countDatas : List Evt → Nat
  | [] => 0
  | .data _ :: t => countDatas t + 1
  | _ :: t => countDatas t

/-- A concrete FIFO scenario: two requests submitted back to back while
the first is unanswered, then the two response lines in order. -/
def trFifo : List Evt :=
  [Evt.send false, Evt.send false,
   Evt.data [Line.response "a"], Evt.data [Line.response "b"]]

theorem run_nil (s : SvcState) : run s [] = s := rfl

theorem run_cons (s : SvcState) (e : Evt) (tr : List Evt) :
    run s (e :: tr) = run (step s e) tr := rfl

theorem run_append (s : SvcState) (t1 t2 : List Evt) :
    run s (t1 ++ t2) = run (run s t1) t2 :=
  List.foldl_append ..

theorem listLead_iff (nd hay : List Char) : listLead nd hay = true ↔ nd <+: hay := by
  induction nd generalizing hay with
  | nil => simp [listLead, List.nil_prefix]
  | cons a as ih =>
    cases hay with
    | nil => simp [listLead]
    | cons b bs => simp [listLead, List.cons_prefix_cons, ih, And.comm]

theorem listHas_iff (nd hay : List Char) : listHas nd hay = true ↔ nd <:+: hay := by
  induction hay with
  | nil => simp [listHas, List.infix_nil, List.isEmpty_iff]
  | cons b bs ih => simp [listHas, List.infix_cons_iff, listLead_iff, ih]

/-- The boolean keyword scan of `_isComplexQuery` agrees with the
specification's substring-containment property. -/
theorem isComplexQuery_iff (m : String) :
    isComplexQuery m = true ↔ SpecComplexQuery m := by
  simp [isComplexQuery, List.any_eq_true, jsIncludes, listHas_iff, SpecComplexQuery]

/-- C10: `_determineCommand(message, stream, useRAG)` is a pure total
function of its three inputs: it returns `stream` whenever `stream` is
true; with `stream` false it returns `chat_rag` if and only if `useRAG`
is true or the lower-cased message contains one of the fixed
complex-query keyword substrings, and returns `chat` exactly
otherwise. -/
theorem C10_determine_command (m : String) (u : Bool) :
    determineCommand m true u = "stream" ∧
    (determineCommand m false u = "chat_rag" ↔ (u = true ∨ SpecComplexQuery m)) ∧
    (determineCommand m false u = "chat" ↔ ¬(u = true ∨ SpecComplexQuery m)) := by
  have hne : ("chat" : String) ≠ "chat_rag" := by decide
  refine ⟨rfl, ?_, ?_⟩ <;>
    · unfold determineCommand
      cases u with
      | false =>
        cases hc : isComplexQuery m with
        | false => simp_all [← isComplexQuery_iff]
        | true => simp_all [← isComplexQuery_iff]
      | true => simp [← isComplexQuery_iff, hne]

/-- C9: after every `handleTranscriptionData` call on a buffer of at most
1000 entries the buffer again holds at most 1000 entries, and whenever the
appended entry makes it exceed 1000 the buffer is exactly the most recent
800 entries of the appended buffer, in their original order. -/
theorem C9_buffer_bound (w : WState) (d : WData)
    (h : w.transcriptBuffer.length ≤ 1000) :
    (handleTranscriptionData w d).transcriptBuffer.length ≤ 1000 ∧
    (1000 < w.transcriptBuffer.length + 1 →
      (handleTranscriptionData w d).transcriptBuffer =
        (w.transcriptBuffer ++ [d]).drop (w.transcriptBuffer.length + 1 - 800)) := by
  have hbuf : (handleTranscriptionData w d).transcriptBuffer =
      if (w.transcriptBuffer ++ [d]).length > 1000 then
        (w.transcriptBuffer ++ [d]).drop ((w.transcriptBuffer ++ [d]).length - 800)
      else w.transcriptBuffer ++ [d] := by
    unfold handleTranscriptionData
    cases d <;> rfl
  have hlen : (w.transcriptBuffer ++ [d]).length = w.transcriptBuffer.length + 1 := by
    simp
  rw [hbuf, hlen]
  split
  · constructor
    · rw [List.length_drop, hlen]
      omega
    · intro _
      rfl
  · constructor
    · rw [hlen]
      omega
    · intro hc
      exact absurd hc (by omega)

set_option maxRecDepth 8000 in
/-- Witness for `C9_buffer_bound` at a full buffer of 1000 entries. -/
theorem C9_buffer_bound_witness :
    ((handleTranscriptionData
        ⟨true, true, List.replicate 1000 .unknown, [], [], [], []⟩
        .unknown).transcriptBuffer.length ≤ 1000 ∧
      (1000 < (List.replicate 1000 WData.unknown).length + 1 →
        (handleTranscriptionData
            ⟨true, true, List.replicate 1000 .unknown, [], [], [], []⟩
            .unknown).transcriptBuffer =
          (List.replicate 1000 WData.unknown ++ [WData.unknown]).drop
            ((List.replicate 1000 WData.unknown).length + 1 - 800))) :=
  C9_buffer_bound ⟨true, true, List.replicate 1000 .unknown, [], [], [], []⟩
    .unknown (by simp)

/-- C8: if a required worker file is absent, `start()` (here on a
not-running service) fails before the spawn: no spawn is attempted, the
service is left not running, an error is thrown, and — whenever the
python probe succeeds — the error is the missing-file error raised by
`checkRequiredFiles`. -/
theorem C8_missing_dependency (env : StartEnv)
    (h : env.scriptExists = false ∨ env.configExists = false) :
    (chatbotStart false env).spawned = false ∧
    (chatbotStart false env).running = false ∧
    (∃ e, (chatbotStart false env).result = Except.error e) ∧
    (env.pythonFound = true →
      (chatbotStart false env).result = Except.error "Chatbot script not found" ∨
      (chatbotStart false env).result = Except.error "Chatbot config not found") := by
  obtain ⟨p, sc, cf⟩ := env
  cases p <;> cases sc <;> cases cf <;>
    simp_all [chatbotStart, checkRequiredFiles]

/-- Witness for `C8_missing_dependency`: python present, config absent. -/
theorem C8_missing_dependency_witness :
    (chatbotStart false ⟨true, true, false⟩).spawned = false ∧
    (chatbotStart false ⟨true, true, false⟩).running = false ∧
    (∃ e, (chatbotStart false ⟨true, true, false⟩).result = Except.error e) ∧
    ((true : Bool) = true →
      (chatbotStart false ⟨true, true, false⟩).result
          = Except.error "Chatbot script not found" ∨
      (chatbotStart false ⟨true, true, false⟩).result
          = Except.error "Chatbot config not found") :=
  C8_missing_dependency ⟨true, true, false⟩ (Or.inr rfl)

/-- C7: `stop()` never throws (both embeddings are total functions whose
source wraps all I/O in `try`/`catch`), always leaves the service not
running, and is idempotent — a second `stop()`, or a `stop()` on a
never-started service, is a no-op.  The hypotheses record the class
invariant that a running service has a process handle (the only code
paths clearing the handle also clear the running flag). -/
theorem C7_idempotent_stop (s : SvcState) (w : WState)
    (hs : s.isRunning = true → s.hasProcess = true)
    (hw : w.isRunning = true → w.hasProcess = true) :
    (stopChatbot s).isRunning = false ∧
    stopChatbot (stopChatbot s) = stopChatbot s ∧
    (whisperStop w).isRunning = false ∧
    whisperStop (whisperStop w) = whisperStop w := by
  refine ⟨?_, ?_, ?_, ?_⟩
  · cases hr : s.isRunning with
    | false => simp [stopChatbot, hr]
    | true => simp [stopChatbot, hr, hs hr]
  · cases hr : s.isRunning with
    | false => simp [stopChatbot, hr]
    | true => simp [stopChatbot, hr, hs hr]
  · cases hr : w.isRunning with
    | false => simp [whisperStop, hr]
    | true => simp [whisperStop, hr, hw hr]
  · cases hr : w.isRunning with
    | false => simp [whisperStop, hr]
    | true => simp [whisperStop, hr, hw hr]

/-- Witness for `C7_idempotent_stop` on a running chatbot service and a
running whisper service. -/
theorem C7_idempotent_stop_witness :
    (stopChatbot runningInit).isRunning = false ∧
    stopChatbot (stopChatbot runningInit) = stopChatbot runningInit ∧
    (whisperStop ⟨true, true, [], [], [], [], []⟩).isRunning = false ∧
    whisperStop (whisperStop ⟨true, true, [], [], [], [], []⟩)
        = whisperStop ⟨true, true, [], [], [], [], []⟩ :=
  C7_idempotent_stop runningInit ⟨true, true, [], [], [], [], []⟩
    (fun _ => rfl) (fun _ => rfl)

theorem expProm_length (rs : List String) (m k : Nat) :
    (expProm rs m k).length = m := by
  simp [expProm]

theorem expProm_getElem (rs : List String) (m k i : Nat)
    (hi : i < (expProm rs m k).length) :
    (expProm rs m k)[i] =
      if i < k then .resolved (rs.getD i "") else .pending := by
  simp [expProm]

theorem expProm_getD (rs : List String) (m k i : Nat) (d : PromiseState)
    (hi : i < m) :
    (expProm rs m k).getD i d =
      if i < k then .resolved (rs.getD i "") else .pending := by
  have h1 : i < (expProm rs m k).length := by rw [expProm_length]; exact hi
  rw [List.getD_eq_getElem _ _ h1, expProm_getElem]

theorem expProm_append (rs : List String) (m k : Nat) (h : k ≤ m) :
    expProm rs m k ++ [.pending] = expProm rs (m + 1) k := by
  unfold expProm
  rw [List.range_succ, List.map_append]
  congr 1
  simp only [List.map_cons, List.map_nil]
  rw [if_neg (by omega)]

theorem settle_expProm (rs : List String) (m k : Nat) (h : k < m) :
    settle (expProm rs m k) k (.resolved (rs.getD k "")) = expProm rs m (k + 1) := by
  unfold settle
  rw [expProm_getD rs m k k _ h, if_neg (lt_irrefl k)]
  simp only [PromiseState.isPending, if_true]
  apply List.ext_getElem
  · simp [expProm_length]
  · intro i h1 h2
    rw [List.getElem_set, expProm_getElem rs m (k + 1) i h2]
    split
    · rename_i he
      subst he
      rw [if_pos (by omega)]
    · rename_i he
      have h3 : i < (expProm rs m k).length := by
        simpa [expProm_length] using h2
      rw [expProm_getElem rs m k i h3]
      by_cases hik : i < k
      · rw [if_pos hik, if_pos (by omega)]
      · rw [if_neg hik, if_neg (by omega)]

theorem idRange_self (a : Nat) : idRange a a = [] := by
  simp [idRange]

theorem idRange_append (a b : Nat) (h : a ≤ b) :
    idRange a b ++ [⟨b, false⟩] = idRange a (b + 1) := by
  unfold idRange
  rw [show b + 1 - a = (b - a) + 1 by omega, List.range'_concat, one_mul,
    show a + (b - a) = b by omega]
  rw [List.map_append]
  simp

theorem idRange_cons (a b : Nat) (h : a < b) :
    idRange a b = ⟨a, false⟩ :: idRange (a + 1) b := by
  unfold idRange
  rw [show b - a = (b - (a + 1)) + 1 by omega, List.range'_succ]
  simp

theorem inv_send {rs : List String} {m k : Nat} {s : SvcState}
    (h : SvcInv rs m k s) : SvcInv rs (m + 1) k (sendMessage s false) := by
  obtain ⟨hkm, hnext, hprom, hrun, hproc, hflight⟩ := h
  obtain ⟨n, q, pF, ls, ps, ts, wr, cl, sl, ir, hpr⟩ := s
  simp only at hnext hprom hrun hproc hflight
  subst hprom hrun hproc
  subst n
  by_cases hklt : k < m
  · rw [if_pos hklt] at hflight
    obtain ⟨hl, hp, hq, ht, hw⟩ := hflight
    subst hl hp hq ht hw
    refine ⟨by omega, ?_, ?_, ?_, ?_, ?_⟩
    · simp [sendMessage, processMessageQueue]
    · simp [sendMessage, processMessageQueue,
        expProm_append rs m k (by omega)]
    · simp [sendMessage, processMessageQueue]
    · simp [sendMessage, processMessageQueue]
    · rw [if_pos (by omega : k < m + 1)]
      refine ⟨?_, ?_, ?_, ?_, ?_⟩ <;>
        simp [sendMessage, processMessageQueue, idRange_append (k + 1) m hklt]
  · rw [if_neg hklt] at hflight
    obtain ⟨hl, hp, hq, ht, hw⟩ := hflight
    subst hl hp hq ht hw
    have hkm2 : k = m := by omega
    subst hkm2
    refine ⟨by omega, ?_, ?_, ?_, ?_, ?_⟩
    · simp [sendMessage, processMessageQueue]
    · simp [sendMessage, processMessageQueue,
        expProm_append rs k k (by omega)]
    · simp [sendMessage, processMessageQueue]
    · simp [sendMessage, processMessageQueue]
    · rw [if_pos (by omega : k < k + 1)]
      refine ⟨?_, ?_, ?_, ?_, ?_⟩ <;>
        simp [sendMessage, processMessageQueue, idRange_self, List.range_succ]

theorem inv_data {rs : List String} {m k : Nat} {s : SvcState}
    (h : SvcInv rs m k s) (hklt : k < m) :
    SvcInv rs m (k + 1) (fireData s [Line.response (rs.getD k "")]) := by
  obtain ⟨hkm, hnext, hprom, hrun, hproc, hflight⟩ := h
  obtain ⟨n, q, pF, ls, ps, ts, wr, cl, sl, ir, hpr⟩ := s
  simp only at hnext hprom hrun hproc hflight
  subst hprom hrun hproc
  subst n
  rw [if_pos hklt] at hflight
  obtain ⟨hl, hp, hq, ht, hw⟩ := hflight
  subst hl hp hq ht hw
  have e1 : fireData
      ⟨m, idRange (k + 1) m, true, [⟨k, false, []⟩], expProm rs m k, [k],
        List.range (k + 1), cl, sl, true, true⟩
      [Line.response (rs.getD k "")] =
      processMessageQueue
        ⟨m, idRange (k + 1) m, false, [], expProm rs m (k + 1), [],
          List.range (k + 1), cl, sl, true, true⟩ := by
    simp [fireData, handleResponse, settle_expProm rs m k hklt,
      -List.getD_eq_getElem?_getD]
  rw [e1]
  by_cases h2 : k + 1 < m
  · rw [idRange_cons (k + 1) m h2]
    refine ⟨by omega, ?_, ?_, ?_, ?_, ?_⟩
    · simp [processMessageQueue]
    · simp [processMessageQueue]
    · simp [processMessageQueue]
    · simp [processMessageQueue]
    · rw [if_pos h2]
      refine ⟨?_, ?_, ?_, ?_, ?_⟩ <;>
        simp [processMessageQueue, List.range_succ]
  · have hm2 : m = k + 1 := by omega
    subst hm2
    rw [idRange_self (k + 1)]
    refine ⟨by omega, ?_, ?_, ?_, ?_, ?_⟩
    · simp [processMessageQueue]
    · simp [processMessageQueue]
    · simp [processMessageQueue]
    · simp [processMessageQueue]
    · rw [if_neg (by omega : ¬ k + 1 < k + 1)]
      refine ⟨?_, ?_, ?_, ?_, ?_⟩ <;> simp [processMessageQueue]

theorem inv_run {rs : List String} {m k : Nat} {tr : List Evt}
    (h : SDTrace rs m k tr) :
    ∀ s : SvcState, SvcInv rs m k s →
      ∃ m2 k2, SvcInv rs m2 k2 (run s tr) ∧
        m2 = m + countSends tr ∧ k2 = k + countDatas tr := by
  induction h with
  | nil =>
    intro s hs
    exact ⟨_, _, hs, by simp [countSends], by simp [countDatas]⟩
  | send h ih =>
    intro s hs
    obtain ⟨m2, k2, h2, e2, e3⟩ := ih _ (inv_send hs)
    exact ⟨m2, k2, h2, by simp [countSends]; omega, by simp [countDatas]; omega⟩
  | data hk h ih =>
    intro s hs
    obtain ⟨m2, k2, h2, e2, e3⟩ := ih _ (inv_data hs hk)
    exact ⟨m2, k2, h2, by simp [countSends]; omega, by simp [countDatas]; omega⟩

theorem svcInv_init (rs : List String) : SvcInv rs 0 0 runningInit := by
  refine ⟨le_refl 0, rfl, ?_, rfl, rfl, ?_⟩
  · simp [runningInit, expProm]
  · rw [if_neg (lt_irrefl 0)]
    exact ⟨rfl, rfl, rfl, rfl, rfl⟩

/-- C1: FIFO correlation.  For any interleaving of `N` submissions with
the per-line deliveries of the `N` response lines `rs` in order — each
line arriving while its request is in flight, requests submitted at any
time, including while another is in flight — every caller's promise ends
up resolved with the response at its own submission position. -/
theorem C1_fifo (rs : List String) (tr : List Evt) (h : SDTrace rs 0 0 tr)
    (hs : countSends tr = rs.length) (hd : countDatas tr = rs.length) :
    ∀ i, i < rs.length →
      (run runningInit tr).promises.getD i .pending = .resolved (rs.getD i "") := by
  obtain ⟨m2, k2, h2, e2, e3⟩ := inv_run h runningInit (svcInv_init rs)
  intro i hi
  rw [h2.hprom, expProm_getD rs m2 k2 i _ (by omega), if_pos (by omega)]

/-- Witness for `C1_fifo`: two requests submitted back to back, answered
by two response lines; each resolves with its own response. -/
theorem C1_fifo_witness :
    (run runningInit trFifo).promises.getD 0 .pending = .resolved "a" ∧
    (run runningInit trFifo).promises.getD 1 .pending = .resolved "b" :=
  ⟨C1_fifo ["a", "b"] trFifo
      (SDTrace.send (SDTrace.send
        (SDTrace.data (by decide) (SDTrace.data (by decide) SDTrace.nil))))
      rfl rfl 0 (by decide),
    C1_fifo ["a", "b"] trFifo
      (SDTrace.send (SDTrace.send
        (SDTrace.data (by decide) (SDTrace.data (by decide) SDTrace.nil))))
      rfl rfl 1 (by decide)⟩

theorem inv_inFlight {rs : List String} {m k : Nat} {s : SvcState}
    (h : SvcInv rs m k s) : inFlightCount s ≤ 1 := by
  obtain ⟨hkm, hnext, hprom, hrun, hproc, hflight⟩ := h
  unfold inFlightCount
  rw [hprom]
  have hresolved : ∀ b : Nat, b ≤ k →
      List.filter
        (fun i => ((expProm rs m k).getD i (.resolved "")).isPending)
        (List.range b) = [] := by
    intro b hb
    rw [List.filter_eq_nil_iff]
    intro a ha
    rw [List.mem_range] at ha
    rw [expProm_getD rs m k a _ (by omega), if_pos (by omega)]
    simp [PromiseState.isPending]
  by_cases hklt : k < m
  · rw [if_pos hklt] at hflight
    rw [hflight.2.2.2.2, List.range_succ, List.filter_append,
      hresolved k (le_refl k), List.nil_append]
    simpa using
      List.length_filter_le
        (fun i => ((expProm rs m k).getD i (.resolved "")).isPending) [k]
  · rw [if_neg hklt] at hflight
    rw [hflight.2.2.2.2, hresolved m (by omega)]
    simp

/-- C5 (amended): in executions without timeout firings — any
interleaving of submissions and per-line response deliveries — at most
one request is in flight (written to the worker and unsettled) at every
point, and the tail of the queue waits in FIFO order.  (After a timeout
fires this breaks: see the counterexample.) -/
theorem C5_amended (rs : List String) (tr : List Evt) (h : SDTrace rs 0 0 tr) :
    inFlightCount (run runningInit tr) ≤ 1 := by
  obtain ⟨m2, k2, h2, -, -⟩ := inv_run h runningInit (svcInv_init rs)
  exact inv_inFlight h2

/-- Witness for `C5_amended`: two back-to-back submissions leave exactly
the first in flight. -/
theorem C5_amended_witness :
    inFlightCount (run runningInit [Evt.send false, Evt.send false]) ≤ 1 :=
  C5_amended [] [Evt.send false, Evt.send false]
    (SDTrace.send (SDTrace.send SDTrace.nil))

/-- C5 counterexample: the at-most-one-in-flight invariant is violated
once a timeout fires.  Three requests are submitted; request 0 times out
(which starts request 1); the response then fires both request 0's stale
one-shot listener and request 1's listener — the stale one prematurely
clears the processing flag and starts request 2, and afterwards a fourth
submission starts immediately as well, leaving requests 2 and 3
simultaneously written and unanswered. -/
theorem C5_counterexample :
    inFlightCount
      (run runningInit
        [Evt.send false, Evt.send false, Evt.send false, Evt.timeout 0,
          Evt.data [Line.response "r1"], Evt.send false]) = 2 := by
  decide

theorem sdtrace_replicate (rs : List String) (n : Nat) :
    ∀ m k : Nat, SDTrace rs m k (List.replicate n (Evt.send false)) := by
  induction n with
  | zero => intro m k; exact SDTrace.nil
  | succ n ih => intro m k; exact SDTrace.send (ih (m + 1) k)

theorem countSends_replicate (n : Nat) :
    countSends (List.replicate n (Evt.send false)) = n := by
  induction n with
  | zero => rfl
  | succ n ih => simp [List.replicate, countSends, ih]

theorem countDatas_replicate (n : Nat) :
    countDatas (List.replicate n (Evt.send false)) = 0 := by
  induction n with
  | zero => rfl
  | succ n ih => simp [List.replicate, countDatas, ih]

/-- C2 counterexample: the worker's `close` event while one request is in
flight and one is queued leaves both promises pending — nothing is
rejected with any `WorkerExited`-style error — and the queue still holds
the waiting request. -/
theorem C2_counterexample :
    (run runningInit [Evt.send false, Evt.send false, Evt.procClose]).promises
        = [.pending, .pending] ∧
    (run runningInit [Evt.send false, Evt.send false, Evt.procClose]).messageQueue
        ≠ [] := by
  decide

/-- C2 (amended): if the worker process exits while `K` requests are
pending, none of them is rejected — all `K` promises are left pending
(each is only rejected later, by its own 30-second timeout) — the queue
still holds the `K - 1` waiting requests, and the service merely marks
itself not running. -/
theorem C2_amended (K : Nat) :
    (∀ i, i < K →
      (run runningInit
        (List.replicate K (Evt.send false) ++ [Evt.procClose])).promises.getD
          i .pending = .pending) ∧
    (run runningInit
      (List.replicate K (Evt.send false) ++ [Evt.procClose])).messageQueue.length
        = K - 1 ∧
    (run runningInit
      (List.replicate K (Evt.send false) ++ [Evt.procClose])).isRunning = false := by
  obtain ⟨m2, k2, h2, e2, e3⟩ :=
    inv_run (sdtrace_replicate [] K 0 0) runningInit (svcInv_init [])
  rw [countSends_replicate] at e2
  rw [countDatas_replicate] at e3
  rw [run_append]
  refine ⟨?_, ?_, rfl⟩
  · intro i hi
    show (run runningInit
        (List.replicate K (Evt.send false))).promises.getD i .pending = .pending
    rw [h2.hprom, expProm_getD [] m2 k2 i _ (by omega), if_neg (by omega)]
  · show (run runningInit
        (List.replicate K (Evt.send false))).messageQueue.length = K - 1
    have hf := h2.hflight
    by_cases hK : k2 < m2
    · rw [if_pos hK] at hf
      rw [hf.2.2.1]
      simp only [idRange, List.length_map, List.length_range']
      omega
    · rw [if_neg hK] at hf
      rw [hf.2.2.1]
      simp only [List.length_nil]
      omega

/-- Witness for `C2_amended` at `K = 2`. -/
theorem C2_amended_witness :
    (run runningInit
      (List.replicate 2 (Evt.send false) ++ [Evt.procClose])).promises.getD
        0 .pending = .pending ∧
    (run runningInit
      (List.replicate 2 (Evt.send false) ++ [Evt.procClose])).promises.getD
        1 .pending = .pending ∧
    (run runningInit
      (List.replicate 2 (Evt.send false) ++ [Evt.procClose])).messageQueue.length
        = 2 - 1 :=
  ⟨(C2_amended 2).1 0 (by decide), (C2_amended 2).1 1 (by decide),
    (C2_amended 2).2.1⟩

/-- C3 counterexample: feeding the chatbot service a non-JSON line
followed by a valid response line in one chunk resolves nothing (the
`catch` aborts the whole chunk) and emits no diagnostic through any
callback; and because the one-shot listener has been consumed, a later
chunk with a valid response line is not processed either — the request
stays pending until its timeout. -/
theorem C3_counterexample :
    (run runningInit
      [Evt.send false,
        Evt.data [Line.malformed "not json", Line.response "ok"]]).promises
      = [.pending] ∧
    (run runningInit
      [Evt.send false,
        Evt.data [Line.malformed "not json", Line.response "ok"],
        Evt.data [Line.response "ok"]]).promises
      = [.pending] ∧
    (run runningInit
      [Evt.send false,
        Evt.data [Line.malformed "not json", Line.response "ok"]]).callbackLog
      = [] ∧
    (run runningInit
      [Evt.send false,
        Evt.data [Line.malformed "not json", Line.response "ok"]]).statusLog
      = [] := by
  decide

/-- C3 (amended): in the chatbot service a chunk starting with a
non-JSON line is swallowed whole — the state is unchanged except that
every one-shot stdout listener is consumed, so the valid response line
after the malformed one (and any later line) is never delivered and no
diagnostic is emitted.  In the whisper service malformed lines are
instead skipped per line: the raw line is logged once and a following
valid line is still dispatched, so there the stream does continue. -/
theorem C3_amended (s : SvcState) (raw : String) (rest : List Line)
    (w : WState) (t : String) :
    fireData s (Line.malformed raw :: rest) = { s with listeners := [] } ∧
    (whisperData w [WLine.plain raw, WLine.json (.transcript t)]).transcriptCb
      = w.transcriptCb ++ [.transcript t] ∧
    (whisperData w [WLine.plain raw, WLine.json (.transcript t)]).plainLog
      = w.plainLog ++ [raw] := by
  refine ⟨?_, ?_, ?_⟩
  · unfold fireData
    generalize ({ s with listeners := [] } : SvcState) = s1
    induction s.listeners generalizing s1 with
    | nil => rfl
    | cons L ls ih => simp [handleResponse, ih]
  · simp [whisperData, handleTranscriptionData]
  · simp [whisperData, handleTranscriptionData]

/-- C4 counterexample: request 0 times out while request 1 waits; the
timeout starts request 1, and the worker's next (late) response line is
then delivered to request 1's promise — it is not orphaned. -/
theorem C4_counterexample :
    (run runningInit
      [Evt.send false, Evt.send false, Evt.timeout 0,
        Evt.data [Line.response "late"]]).promises
      = [.rejected "Message timeout", .resolved "late"] := by
  decide

/-- C4 (amended): when a request's timeout fires, that request's promise
is rejected with the `Message timeout` error and the next queued request
is started; the next response line arriving from the worker is then
delivered to that next request's promise (it also re-fires the timed-out
request's stale one-shot listener, whose settle attempt is a no-op) —
the late response is not orphaned. -/
theorem C4_amended (r : String) :
    (run runningInit
      [Evt.send false, Evt.send false, Evt.timeout 0,
        Evt.data [Line.response r]]).promises
      = [.rejected "Message timeout", .resolved r] := by
  rfl

/-- The `handleResponse` closure on a chunk made of stream chunks
followed by the terminal `stream_end`: every chunk is appended to the
callback log in order and the promise is resolved with the concatenation
of the accumulated buffer and the chunks. -/
theorem handleResponse_stream (L : Listener) (cs : List String) :
    ∀ (buf : List String) (s : SvcState),
      handleResponse L buf s (cs.map Line.streamChunk ++ [Line.streamEnd]) =
        processMessageQueue
          { s with
            callbackLog := s.callbackLog ++ cs
            timeouts := s.timeouts.filter (fun j => j != L.reqId)
            isProcessingMessage := false
            promises := settle s.promises L.reqId
              (.resolved (String.join (buf ++ cs))) } := by
  induction cs with
  | nil =>
    intro buf s
    simp [handleResponse]
  | cons c cs ih =>
    intro buf s
    simp only [List.map_cons, List.cons_append, handleResponse, List.append_eq]
    rw [ih (buf ++ [c])]
    simp [List.append_assoc]

/-- C6 counterexample: a streaming request whose `stream_chunk` and
`stream_end` messages arrive in two separate stdout chunks delivers the
chunk via the callback but never resolves the promise — the one-shot
listener is consumed by the first chunk, so the `stream_end` is never
seen. -/
theorem C6_counterexample :
    (run runningInit
      [Evt.send true, Evt.data [Line.streamChunk "a"],
        Evt.data [Line.streamEnd]]).callbackLog = ["a"] ∧
    (run runningInit
      [Evt.send true, Evt.data [Line.streamChunk "a"],
        Evt.data [Line.streamEnd]]).promises = [.pending] := by
  decide

/-- C6 (amended): for a streaming request whose `stream_chunk` messages
and terminal `stream_end` all arrive within a single stdout data chunk,
every chunk is delivered via the registered callback in arrival order
and the promise resolves with the concatenation of the chunks; split
across several chunks the one-shot listener misses the later events and
the promise is never resolved. -/
theorem C6_amended (cs : List String) :
    (run runningInit
      [Evt.send true,
        Evt.data (cs.map Line.streamChunk ++ [Line.streamEnd])]).promises
      = [.resolved (String.join cs)] ∧
    (run runningInit
      [Evt.send true,
        Evt.data (cs.map Line.streamChunk ++ [Line.streamEnd])]).callbackLog
      = cs := by
  have h1 : ∀ chunk : List Line,
      run runningInit [Evt.send true, Evt.data chunk] =
        handleResponse ⟨0, true, []⟩ []
          ⟨1, [], true, [], [.pending], [0], [0], [], [], true, true⟩ chunk :=
    fun _ => rfl
  rw [h1, handleResponse_stream]
  constructor <;>
    simp [processMessageQueue, settle, PromiseState.isPending]
